import Mathlib

/-!
# Verification of the Ollama provider streaming layer

Shallow embedding of `packages/core/src/providers/ollama/OllamaProvider.ts`:
the NDJSON chat-completion stream decoder (`generateChatCompletion`), the
model-listing fallback (`getModels`), tool-format resolution
(`getToolFormat`), and the bearer-token cache (`getBearerToken`,
`setTokenUrl`, `clearCachedToken`).

Conventions of the embedding:
- Byte/character streams are `List Char`; a network read delivers one chunk
  (`List Char`), and the chat stream is a list of chunks.
- `JSON.parse` is the JavaScript runtime's parser, external to the
  repository; the decoder is therefore parameterised by a parse function
  `List Char → Option OllamaChatResponse` (`none` models a thrown
  `SyntaxError`, `some` the structurally-typed parse result).  Concrete
  instances record the actual behaviour of `JSON.parse` on the concrete
  lines used in witnesses.
- JavaScript truthiness tests (`x || y`, `if (x)`) on optional strings and
  numbers are modelled explicitly (`none`, `some ""` and `some 0` are
  falsy).
- Fallible paths (thrown errors propagated to the caller) are `Except`.
-/

namespace OllamaProvider

/-- Model of `ToolCall` as carried verbatim on Ollama responses and
outward messages (an `id`, the constant tag `type: "function"`, which is
omitted here, and a `function` object holding `name` and `arguments`). -/
structure ToolCall where
  id : String
  name : String
  arguments : String
deriving Repr, DecidableEq

/-- Usage statistics attached to the final outward message. -/
structure UsageStats where
  prompt_tokens : Nat
  completion_tokens : Nat
  total_tokens : Nat
deriving Repr, DecidableEq

/-- The outward `IMessage` shape yielded by `generateChatCompletion`. -/
structure IMessage where
  role : String
  content : String
  tool_calls : Option (List ToolCall)
  usage : Option UsageStats
deriving Repr, DecidableEq

/-- The `message` field of an `OllamaChatResponse`; `content` is optional
to model a JSON object whose `content` key is absent (the code guards with
`data.message.content || ''`). -/
structure OllamaChatMessage where
  content : Option String
  tool_calls : Option (List ToolCall)
deriving Repr, DecidableEq

/-- One parsed NDJSON chat-stream record (`OllamaChatResponse` in the
source, restricted to the fields the decoder reads). -/
structure OllamaChatResponse where
  done : Bool
  message : OllamaChatMessage
  prompt_eval_count : Option Nat
  eval_count : Option Nat
deriving Repr, DecidableEq

/-- JavaScript `x || ''` on an optional string. -/
def jsStrOr (x : Option String) (d : String) : String :=
  match x with
  | none => d
  | some s => if s = "" then d else s

/-- JavaScript `x || 0` on an optional numeric count. -/
def jsNatOr (x : Option Nat) (d : Nat) : Nat :=
  match x with
  | none => d
  | some n => if n = 0 then d else n

/-- The final message built for a `done:true` record (lines 416-425 of
`OllamaProvider.ts`): usage totals come from `prompt_eval_count` and
`eval_count` of that record, `total_tokens` being their sum. -/
def finalMessage (data : OllamaChatResponse) : IMessage :=
  { role := "assistant"
    content := jsStrOr data.message.content ""
    tool_calls := data.message.tool_calls
    usage := some
      { prompt_tokens := jsNatOr data.prompt_eval_count 0
        completion_tokens := jsNatOr data.eval_count 0
        total_tokens := jsNatOr data.prompt_eval_count 0 + jsNatOr data.eval_count 0 } }

/-- The streaming message built for a `done:false` record (lines 430-435). -/
def streamMessage (data : OllamaChatResponse) : IMessage :=
  { role := "assistant"
    content := jsStrOr data.message.content ""
    tool_calls := data.message.tool_calls
    usage := none }

/-- JavaScript `line.trim()` on a character list: strip leading and
trailing whitespace. -/
def trimChars (l : List Char) : List Char :=
  ((l.dropWhile Char.isWhitespace).reverse.dropWhile Char.isWhitespace).reverse

/-- The per-line decode loop of `generateChatCompletion` (lines 408-441):
blank lines are skipped; a line failing `JSON.parse` is skipped (caught
`parseError`, stream continues); a `done:false` record yields a streaming
message; the first `done:true` record yields the final usage message and
returns from the generator, so no further line is processed. -/
def processLines (parse : List Char → Option OllamaChatResponse) :
    List (List Char) → List IMessage
  | [] => []
  | line :: rest =>
    if trimChars line = [] then processLines parse rest
    else
      match parse line with
      | none => processLines parse rest
      | some data =>
        if data.done then [finalMessage data]
        else streamMessage data :: processLines parse rest

/-- JavaScript `text.split(sep)` followed by `pop()`: the pair of all
pieces but the last, and the last piece.  `split` always returns one more
piece than there are separators (splitting `""` gives `[""]`), so the
popped last piece always exists; splitting and popping are computed in one
pass here. -/
def splitLines (sep : Char) : List Char → List (List Char) × List Char
  | [] => ([], [])
  | c :: cs =>
    let r := splitLines sep cs
    if c = sep then ([] :: r.1, r.2)
    else
      match r.1 with
      | [] => ([], c :: r.2)
      | l :: ls => ((c :: l) :: ls, r.2)

/-- One read iteration of the frame extractor (lines 404-406):
`buffer += chunk; lines = buffer.split('\n'); buffer = lines.pop() || ''`.
Returns the complete lines and the new buffer (the trailing piece). -/
def feedChunk (buf chunk : List Char) : List (List Char) × List Char :=
  splitLines '\n' (buf ++ chunk)

/-- The whole read loop (lines 400-441) at the framing level: feed each
chunk through `feedChunk`, carrying the decode buffer between reads;
returns all complete lines in order plus the final buffer contents, which
the code discards when `reader.read()` reports `done`. -/
def extractLoop : List (List Char) → List Char → List (List Char) × List Char
  | [], buf => ([], buf)
  | chunk :: chunks, buf =>
    let fed := feedChunk buf chunk
    let restR := extractLoop chunks fed.2
    (fed.1 ++ restR.1, restR.2)

/-- The sequence of complete lines the decoder sees for a given chunking of
the byte stream: trailing buffered bytes with no terminating newline are
discarded at stream end. -/
def streamLines (chunks : List (List Char)) : List (List Char) :=
  (extractLoop chunks []).1

/-- The fields of the `fetch` response that `generateChatCompletion` reads:
`ok`, `status`, `statusText`, the body text (read only on error), and
whether `response.body` is present. -/
structure HttpResponse where
  ok : Bool
  status : Nat
  statusText : String
  bodyText : String
  hasBody : Bool
deriving Repr, DecidableEq

/-- The error message thrown on a non-2xx chat-completion response
(line 389): `Ollama API error: ${status} ${statusText} - ${errorText}`. -/
def ollamaApiError (status : Nat) (statusText bodyText : String) : String :=
  "Ollama API error: " ++ toString status ++ " " ++ statusText ++ " - " ++ bodyText

/-- Embedding of `generateChatCompletion` (lines 371-445) as a function of the HTTP
response and the streamed chunks: a non-ok response throws (the outer
`catch` rethrows, so the error propagates to the caller with no retry); a
missing body throws; otherwise the NDJSON decode loop runs over the
extracted lines. -/
def generateChatCompletion (parse : List Char → Option OllamaChatResponse)
    (resp : HttpResponse) (chunks : List (List Char)) :
    Except String (List IMessage) :=
  if resp.ok = false then
    Except.error (ollamaApiError resp.status resp.statusText resp.bodyText)
  else if resp.hasBody = false then
    Except.error "No response body from Ollama API"
  else
    Except.ok (processLines parse (streamLines chunks))

/-- The trailing piece returned by `splitLines` never contains the
separator: the decode buffer carried between reads is always a partial
line. -/
theorem splitLines_snd_not_mem (sep : Char) (l : List Char) :
    sep ∉ (splitLines sep l).2 := by
  induction l with
  | nil => simp [splitLines]
  | cons c cs ih =>
    simp only [splitLines]
    by_cases hc : c = sep
    · simpa [hc] using ih
    · cases h : (splitLines sep cs).1 with
      | nil =>
        simp only [h, if_neg hc, List.mem_cons]
        rintro (rfl | hm)
        · exact hc rfl
        · exact ih hm
      | cons a as => simpa [h, hc] using ih

/-- A fragment with no separator splits into no complete line and itself as
the trailing piece. -/
theorem splitLines_no_sep (sep : Char) (l : List Char) (h : sep ∉ l) :
    splitLines sep l = ([], l) := by
  induction l with
  | nil => rfl
  | cons c cs ih =>
    simp only [List.mem_cons, not_or] at h
    simp [splitLines, ih h.2, Ne.symm h.1, h.1]

/-- Splitting a concatenation: the complete lines of `x ++ y` are the
complete lines of `x`, then (when `y` contributes at least one complete
line) the trailing piece of `x` glued onto the first line of `y` and the
remaining lines of `y`; the final trailing piece is `y`'s, or `x`'s
trailing piece extended when `y` has no newline. -/
theorem splitLines_append (sep : Char) (x y : List Char) :
    splitLines sep (x ++ y) =
      match (splitLines sep y).1 with
      | [] => ((splitLines sep x).1, (splitLines sep x).2 ++ (splitLines sep y).2)
      | h :: t =>
        ((splitLines sep x).1 ++ ((splitLines sep x).2 ++ h) :: t,
          (splitLines sep y).2) := by
  induction x with
  | nil =>
    cases h : (splitLines sep y).1 with
    | nil =>
      simp only [List.nil_append, splitLines, h]
      rw [show splitLines sep y = ((splitLines sep y).1, (splitLines sep y).2) from rfl, h]
    | cons a as =>
      simp only [List.nil_append, splitLines, h, List.nil_append]
      rw [show splitLines sep y = ((splitLines sep y).1, (splitLines sep y).2) from rfl, h]
  | cons c cs ih =>
    cases h : (splitLines sep y).1 with
    | nil =>
      have ih' : splitLines sep (cs ++ y) =
          ((splitLines sep cs).1, (splitLines sep cs).2 ++ (splitLines sep y).2) := by
        rw [ih, h]
      by_cases hc : c = sep
      · simp [splitLines, ih', hc, h]
      · cases hx : (splitLines sep cs).1 with
        | nil => simp [splitLines, ih', hc, h, hx]
        | cons l ls => simp [splitLines, ih', hc, h, hx]
    | cons a as =>
      have ih' : splitLines sep (cs ++ y) =
          ((splitLines sep cs).1 ++ ((splitLines sep cs).2 ++ a) :: as,
            (splitLines sep y).2) := by
        rw [ih, h]
      by_cases hc : c = sep
      · simp [splitLines, ih', hc, h]
      · cases hx : (splitLines sep cs).1 with
        | nil => simp [splitLines, ih', hc, h, hx]
        | cons l ls => simp [splitLines, ih', hc, h, hx]


/-- Invariant of the read loop: provided the carried buffer holds no
newline (which `splitLines_snd_not_mem` guarantees between reads), running
the loop over any list of chunks is the same as splitting the buffer
followed by the concatenation of all chunks in one pass. -/
theorem extractLoop_eq (chunks : List (List Char)) :
    ∀ buf : List Char, '\n' ∉ buf →
      extractLoop chunks buf = splitLines '\n' (buf ++ chunks.flatten) := by
  induction chunks with
  | nil =>
    intro buf hbuf
    simp [extractLoop, splitLines_no_sep '\n' buf hbuf]
  | cons chunk chunks ih =>
    intro buf _
    have hfed : '\n' ∉ (feedChunk buf chunk).2 :=
      splitLines_snd_not_mem '\n' (buf ++ chunk)
    have hrest := ih (feedChunk buf chunk).2 hfed
    simp only [extractLoop, hrest, List.flatten_cons]
    rw [show buf ++ (chunk ++ chunks.flatten) = (buf ++ chunk) ++ chunks.flatten by
      simp [List.append_assoc]]
    rw [splitLines_append '\n' (buf ++ chunk) chunks.flatten]
    rw [splitLines_append '\n' (feedChunk buf chunk).2 chunks.flatten]
    rw [splitLines_no_sep '\n' (feedChunk buf chunk).2 hfed]
    cases h : (splitLines '\n' chunks.flatten).1 with
    | nil => simp [feedChunk]
    | cons a as => simp [feedChunk]

/-- The complete-line sequence seen by the decoder depends only on the
concatenated byte stream, not on where the chunk boundaries fall. -/
theorem streamLines_eq (chunks : List (List Char)) :
    streamLines chunks = (splitLines '\n' chunks.flatten).1 := by
  have h := extractLoop_eq chunks [] (by simp)
  simp only [streamLines, h, List.nil_append]

/-- A line that is blank after trimming, or whose payload fails JSON
parsing, contributes nothing: decoding continues with the remaining
lines. -/
theorem processLines_skip (parse : List Char → Option OllamaChatResponse)
    (line : List Char) (rest : List (List Char))
    (h : trimChars line = [] ∨ parse line = none) :
    processLines parse (line :: rest) = processLines parse rest := by
  rcases h with h | h
  · simp [processLines, h]
  · by_cases ht : trimChars line = []
    · simp [processLines, ht]
    · simp [processLines, ht, h]

/-- Decoding a prefix of lines is unaffected by replacing the suffix with
one that decodes identically (the decoder is a fold that can stop early,
on the first `done:true` record, in which case both sides stop at the same
place). -/
theorem processLines_congr_suffix (parse : List Char → Option OllamaChatResponse)
    (pre : List (List Char)) (rest₁ rest₂ : List (List Char))
    (h : processLines parse rest₁ = processLines parse rest₂) :
    processLines parse (pre ++ rest₁) = processLines parse (pre ++ rest₂) := by
  induction pre with
  | nil => simpa using h
  | cons line pre ih =>
    by_cases ht : trimChars line = []
    · simpa [processLines, ht] using ih
    · cases hp : parse line with
      | none => simpa [processLines, ht, hp] using ih
      | some data =>
        by_cases hd : data.done
        · simp [processLines, ht, hp, hd]
        · simpa [processLines, ht, hp, hd] using ih

/-- C1: an NDJSON chat stream holding one `done:false` record carrying
content and then one `done:true` record carrying `prompt_eval_count:62`
and `eval_count:23` makes `generateChatCompletion` yield a final message
whose `usage` is `{prompt_tokens:62, completion_tokens:23,
total_tokens:85}`, the total computed from the `done:true` record's two
counts. -/
theorem generateChatCompletion_usage_scenario
    (parse : List Char → Option OllamaChatResponse) (resp : HttpResponse)
    (chunks : List (List Char)) (l₁ l₂ : List Char) (c : String)
    (d₁ d₂ : OllamaChatResponse)
    (hok : resp.ok = true) (hbody : resp.hasBody = true)
    (hlines : streamLines chunks = [l₁, l₂])
    (ht₁ : trimChars l₁ ≠ []) (ht₂ : trimChars l₂ ≠ [])
    (hp₁ : parse l₁ = some d₁) (hp₂ : parse l₂ = some d₂)
    (hd₁ : d₁.done = false) (_hcontent : d₁.message.content = some c)
    (hd₂ : d₂.done = true)
    (hpe : d₂.prompt_eval_count = some 62) (hev : d₂.eval_count = some 23) :
    generateChatCompletion parse resp chunks =
      Except.ok [streamMessage d₁, finalMessage d₂] ∧
    (finalMessage d₂).usage =
      some { prompt_tokens := 62, completion_tokens := 23, total_tokens := 62 + 23 } := by
  constructor
  · simp [generateChatCompletion, hok, hbody, hlines, processLines,
      ht₁, ht₂, hp₁, hp₂, hd₁, hd₂]
  · simp [finalMessage, hpe, hev, jsNatOr]

/-- C3: a stream line whose payload is not valid JSON is skipped and the
remaining lines of the same stream are decoded exactly as if the bad line
were absent; one malformed line neither aborts the stream nor produces an
outward message. -/
theorem processLines_malformed_line_skipped
    (parse : List Char → Option OllamaChatResponse)
    (pre : List (List Char)) (line : List Char) (rest : List (List Char))
    (h : parse line = none) :
    processLines parse (pre ++ line :: rest) = processLines parse (pre ++ rest) :=
  processLines_congr_suffix parse pre _ _ (processLines_skip parse line rest (Or.inr h))

/-- C9: once a `done:true` record is decoded, the generator returns: the
outward sequence is the same whatever lines follow it in the stream, so no
later line is parsed or yielded and the usage-bearing final message is the
last element produced. -/
theorem processLines_stops_after_done
    (parse : List Char → Option OllamaChatResponse)
    (pre : List (List Char)) (line : List Char) (rest : List (List Char))
    (data : OllamaChatResponse)
    (ht : trimChars line ≠ []) (hp : parse line = some data)
    (hd : data.done = true) :
    processLines parse (pre ++ line :: rest) = processLines parse (pre ++ [line]) := by
  refine processLines_congr_suffix parse pre _ _ ?_
  simp [processLines, ht, hp, hd]

/-- A concrete `done:false` NDJSON record carrying content, as Ollama
sends it. -/
def lineContentEx : List Char :=
  ("\x7b\"model\":\"llama2\",\"created_at\":\"2024-01-01T00:00:00Z\",\"message\":\x7b\"role\":\"assistant\",\"content\":\"Hello\"\x7d,\"done\":false\x7d").toList

/-- A concrete `done:true` NDJSON record carrying
`prompt_eval_count:62, eval_count:23`. -/
def lineDoneEx : List Char :=
  ("\x7b\"model\":\"llama2\",\"created_at\":\"2024-01-01T00:00:00Z\",\"message\":\x7b\"role\":\"assistant\",\"content\":\"\"\x7d,\"done\":true,\"prompt_eval_count\":62,\"eval_count\":23\x7d").toList

/-- The structural parse of `lineContentEx`. -/
def respContentEx : OllamaChatResponse :=
  { done := false
    message := { content := some "Hello", tool_calls := none }
    prompt_eval_count := none
    eval_count := none }

/-- The structural parse of `lineDoneEx`. -/
def respDoneEx : OllamaChatResponse :=
  { done := true
    message := { content := some "", tool_calls := none }
    prompt_eval_count := some 62
    eval_count := some 23 }

/-- The behaviour of the JavaScript `JSON.parse` (external to the
repository) on the concrete payload lines used in this development: the
two well-formed NDJSON records above parse to their structural content;
every other payload — including the literal `[DONE]`, which is not valid
JSON — throws `SyntaxError`, modelled as `none`. -/
def parseEx (l : List Char) : Option OllamaChatResponse :=
  if l = lineContentEx then some respContentEx
  else if l = lineDoneEx then some respDoneEx
  else none

/-- A concrete successful HTTP response wrapper for the streaming path. -/
def respOkEx : HttpResponse :=
  { ok := true, status := 200, statusText := "OK", bodyText := "", hasBody := true }

/-- C4: the frame extractor is insensitive to chunk boundaries — any two
chunkings of the same byte sequence yield the same complete lines (the
carried decode buffer joins a line spanning two reads), the lines are
exactly the newline-terminated pieces of the concatenation (the trailing
piece with no terminating newline is discarded at stream end without
error), and hence the decoder emits the same outward messages. -/
theorem streamLines_chunking_invariant
    (parse : List Char → Option OllamaChatResponse)
    (chunks₁ chunks₂ : List (List Char))
    (h : chunks₁.flatten = chunks₂.flatten) :
    streamLines chunks₁ = streamLines chunks₂ ∧
    streamLines chunks₁ = (splitLines '\n' chunks₁.flatten).1 ∧
    processLines parse (streamLines chunks₁) =
      processLines parse (streamLines chunks₂) := by
  have h₁ := streamLines_eq chunks₁
  have h₂ := streamLines_eq chunks₂
  have hl : streamLines chunks₁ = streamLines chunks₂ := by rw [h₁, h₂, h]
  exact ⟨hl, h₁, by rw [hl]⟩

/-- C4 witness: the bytes `"ab\nc"` sent whole, or split mid-line as
`"a"`, `"b\nc"`, give the same single complete line `"ab"`, and the
trailing `"c"` is discarded. -/
theorem streamLines_chunking_invariant_witness :
    ("ab\nc".toList :: []).flatten = ("a".toList :: "b\nc".toList :: []).flatten ∧
    streamLines ("ab\nc".toList :: []) = streamLines ("a".toList :: "b\nc".toList :: []) ∧
    streamLines ("ab\nc".toList :: []) =
      (splitLines '\n' ("ab\nc".toList :: []).flatten).1 ∧
    processLines parseEx (streamLines ("ab\nc".toList :: [])) =
      processLines parseEx (streamLines ("a".toList :: "b\nc".toList :: [])) := by
  refine ⟨by decide, ?_⟩
  exact streamLines_chunking_invariant parseEx _ _ (by decide)

/-- C5 counterexample: the decoder in `generateChatCompletion` has no
special case for the `[DONE]` sentinel.  At the concrete stream whose
lines are `[DONE]` and then a well-formed `done:false` record, the line
after `[DONE]` is still decoded and yields an outward message, so the
`[DONE]` line does not terminate the stream. -/
theorem doneSentinel_does_not_terminate :
    processLines parseEx ("[DONE]".toList :: lineContentEx :: []) =
      [streamMessage respContentEx] ∧
    processLines parseEx ("[DONE]".toList :: lineContentEx :: []) ≠ [] := by
  constructor
  · decide
  · decide

/-- C5 (amended): a payload line that is the literal string `[DONE]` is
not valid JSON, so the decoder skips it — it produces no outward message —
and the stream continues: subsequent lines are processed exactly as if
the sentinel were absent. -/
theorem doneSentinel_skipped
    (parse : List Char → Option OllamaChatResponse)
    (pre rest : List (List Char))
    (h : parse ("[DONE]".toList) = none) :
    processLines parse (pre ++ "[DONE]".toList :: rest) =
      processLines parse (pre ++ rest) :=
  processLines_congr_suffix parse pre _ _
    (processLines_skip parse _ rest (Or.inr h))

/-- C5 (amended) witness: with the recorded `JSON.parse` behaviour, the
concrete stream `[DONE]` then a content record decodes as the content
record alone. -/
theorem doneSentinel_skipped_witness :
    processLines parseEx ([] ++ "[DONE]".toList :: (lineContentEx :: [])) =
      processLines parseEx ([] ++ (lineContentEx :: [])) :=
  doneSentinel_skipped parseEx [] (lineContentEx :: []) (by decide)

/-- C2: a non-2xx response to the chat-completion request makes
`generateChatCompletion` raise an error — propagated to the caller with no
retry — whose message contains the decimal status code, the reason phrase,
and the response body text. -/
theorem generateChatCompletion_http_error
    (parse : List Char → Option OllamaChatResponse)
    (resp : HttpResponse) (chunks : List (List Char))
    (h : resp.ok = false) :
    ∃ e, generateChatCompletion parse resp chunks = Except.error e ∧
      List.IsInfix (toString resp.status).data e.data ∧
      List.IsInfix resp.statusText.data e.data ∧
      List.IsInfix resp.bodyText.data e.data := by
  refine ⟨ollamaApiError resp.status resp.statusText resp.bodyText, ?_, ?_, ?_, ?_⟩
  · simp [generateChatCompletion, h]
  · exact ⟨"Ollama API error: ".data, (" " ++ resp.statusText ++ " - " ++ resp.bodyText).data,
      by simp [ollamaApiError, String.data_append, List.append_assoc]⟩
  · exact ⟨("Ollama API error: " ++ toString resp.status ++ " ").data, (" - " ++ resp.bodyText).data,
      by simp [ollamaApiError, String.data_append, List.append_assoc]⟩
  · exact ⟨("Ollama API error: " ++ toString resp.status ++ " " ++ resp.statusText ++ " - ").data, [],
      by simp [ollamaApiError, String.data_append, List.append_assoc]⟩

/-- C2 witness: a concrete 500 response with reason phrase and body. -/
theorem generateChatCompletion_http_error_witness :
    ∃ e, generateChatCompletion parseEx
        { ok := false, status := 500, statusText := "Internal Server Error",
          bodyText := "model not loaded", hasBody := true } [] = Except.error e ∧
      List.IsInfix (toString (500 : Nat)).data e.data ∧
      List.IsInfix "Internal Server Error".data e.data ∧
      List.IsInfix "model not loaded".data e.data :=
  generateChatCompletion_http_error parseEx
    { ok := false, status := 500, statusText := "Internal Server Error",
      bodyText := "model not loaded", hasBody := true } [] rfl

set_option maxRecDepth 4000 in
/-- C1 witness: the concrete two-record stream sent as one chunk. -/
theorem generateChatCompletion_usage_scenario_witness :
    generateChatCompletion parseEx respOkEx
        ((lineContentEx ++ '\n' :: lineDoneEx ++ ['\n']) :: []) =
      Except.ok [streamMessage respContentEx, finalMessage respDoneEx] ∧
    (finalMessage respDoneEx).usage =
      some { prompt_tokens := 62, completion_tokens := 23, total_tokens := 85 } :=
  generateChatCompletion_usage_scenario parseEx respOkEx
    ((lineContentEx ++ '\n' :: lineDoneEx ++ ['\n']) :: [])
    lineContentEx lineDoneEx "Hello" respContentEx respDoneEx
    rfl rfl (by decide) (by decide) (by decide) (by decide) (by decide)
    rfl rfl rfl rfl rfl

/-- C3 witness: the malformed payload `not json` between no prefix and a
well-formed record is skipped. -/
theorem processLines_malformed_line_skipped_witness :
    processLines parseEx ([] ++ "not json".toList :: (lineContentEx :: [])) =
      processLines parseEx ([] ++ (lineContentEx :: [])) :=
  processLines_malformed_line_skipped parseEx [] "not json".toList
    (lineContentEx :: []) (by decide)

/-- C9 witness: a `done:true` record followed by a further buffered line
produces the same outward sequence as the `done:true` record alone. -/
theorem processLines_stops_after_done_witness :
    processLines parseEx ([] ++ lineDoneEx :: (lineContentEx :: [])) =
      processLines parseEx ([] ++ [lineDoneEx]) :=
  processLines_stops_after_done parseEx [] lineDoneEx (lineContentEx :: [])
    respDoneEx (by decide) (by decide) rfl

end OllamaProvider

namespace OllamaProvider

/-- One catalog entry returned by `getModels` (`IModel` restricted to the
fields the provider fills in). -/
structure IModel where
  id : String
  name : String
  provider : String
  supportedToolFormats : List String
  contextWindow : Nat
  maxOutputTokens : Nat
deriving Repr, DecidableEq

/-- The model record of the `/api/tags` body that `getModels` reads. -/
structure OllamaModel where
  name : String
deriving Repr, DecidableEq

/-- The per-model context-window table of `getContextWindowForModel`
(lines 316-337), with its 4096 default. -/
def contextWindows : List (String × Nat) :=
  [("llama2", 4096), ("llama2:7b", 4096), ("llama2:13b", 4096),
   ("llama2:70b", 4096), ("codellama", 100000), ("codellama:7b", 100000),
   ("codellama:13b", 100000), ("codellama:34b", 100000),
   ("deepseek-coder", 16384), ("deepseek-coder:6.7b", 16384),
   ("deepseek-coder:33b", 16384), ("qwen2.5-coder", 32768),
   ("qwen2.5-coder:7b", 32768), ("qwen2.5-coder:32b", 32768),
   ("hermes-coder", 8192), ("gemma2-coder", 8192)]

/-- Embedding of `getContextWindowForModel`: table lookup with default 4096. -/
def getContextWindowForModel (modelName : String) : Nat :=
  (contextWindows.lookup modelName).getD 4096

/-- The hardcoded fallback catalog returned by `getModels` on any failure
(lines 263-312). -/
def defaultOllamaModels : List IModel :=
  [{ id := "llama2", name := "llama2", provider := "ollama",
     supportedToolFormats := ["llama"], contextWindow := 4096, maxOutputTokens := 4096 },
   { id := "llama2:13b", name := "llama2:13b", provider := "ollama",
     supportedToolFormats := ["llama"], contextWindow := 4096, maxOutputTokens := 4096 },
   { id := "llama2:70b", name := "llama2:70b", provider := "ollama",
     supportedToolFormats := ["llama"], contextWindow := 4096, maxOutputTokens := 4096 },
   { id := "codellama", name := "codellama", provider := "ollama",
     supportedToolFormats := ["llama"], contextWindow := 100000, maxOutputTokens := 4096 },
   { id := "deepseek-coder", name := "deepseek-coder", provider := "ollama",
     supportedToolFormats := ["deepseek"], contextWindow := 16384, maxOutputTokens := 4096 },
   { id := "qwen2.5-coder", name := "qwen2.5-coder", provider := "ollama",
     supportedToolFormats := ["qwen"], contextWindow := 32768, maxOutputTokens := 4096 }]

/-- Outcome of the `GET /api/tags` transport, as `getModels` observes it:
a network failure (fetch rejected), a response with non-ok status (the
code then throws and catches its own error), or a parsed body whose
`models` field defaulted to `[]` when absent. -/
inductive TagsFetchOutcome
  | networkError
  | httpError (statusText : String)
  | ok (models : List OllamaModel)
deriving Repr, DecidableEq

/-- Embedding of `getModels` (lines 231-314): on a successful fetch, map each listed
model to a catalog entry; on any transport failure — network error or
non-ok status — the thrown error is caught and the hardcoded fallback
catalog is returned instead of raising. -/
def getModels (outcome : TagsFetchOutcome) : List IModel :=
  match outcome with
  | TagsFetchOutcome.networkError => defaultOllamaModels
  | TagsFetchOutcome.httpError _ => defaultOllamaModels
  | TagsFetchOutcome.ok models =>
    models.map fun model =>
      { id := model.name
        name := model.name
        provider := "ollama"
        supportedToolFormats := ["llama", "deepseek", "qwen", "hermes", "gemma"]
        contextWindow := getContextWindowForModel model.name
        maxOutputTokens := 4096 }

/-- C6: every transport failure of the model-listing request — a network
error or a non-OK response — makes `getModels` return the hardcoded
fallback catalog instead of raising, and that catalog is non-empty, so the
caller always receives a non-empty model list on such failures. -/
theorem getModels_transport_failure_fallback :
    getModels TagsFetchOutcome.networkError = defaultOllamaModels ∧
    (∀ statusText, getModels (TagsFetchOutcome.httpError statusText) = defaultOllamaModels) ∧
    defaultOllamaModels ≠ [] := by
  refine ⟨rfl, fun _ => rfl, ?_⟩
  decide

end OllamaProvider

namespace OllamaProvider

/-- JavaScript truthiness of an optional string (`undefined` and `""` are
falsy). -/
def strTruthy : Option String → Bool
  | none => false
  | some s => !(s = "")

/-- JavaScript truthiness of an optional number (`undefined` and `0` are
falsy). -/
def intTruthy : Option Int → Bool
  | none => false
  | some n => !(n = 0)

/-- The provider-session fields touched by the bearer-token logic:
`tokenUrl`, `apiKey`, `cachedToken`, `tokenExpiry` (a millisecond clock
value, as from `Date.now()`). -/
structure TokenState where
  tokenUrl : Option String
  apiKey : Option String
  cachedToken : Option String
  tokenExpiry : Option Int
deriving Repr, DecidableEq

/-- The token-endpoint response body as classified by the if-chain of
`getBearerToken` (lines 139-152): a bare string; an object with a truthy
`access_token` (OAuth style, with optional `expires_in`); an object with a
truthy `token` (custom style); anything else (`Invalid token response
format`); or a body that failed to parse as JSON. -/
inductive TokenBody
  | str (s : String)
  | oauth (accessToken : String) (expiresIn : Option Int)
  | custom (token : String) (expiresIn : Option Int)
  | invalid
  | jsonError
deriving Repr, DecidableEq

/-- Outcome of the `GET tokenUrl` transport as `getBearerToken` observes
it. -/
inductive TokenFetchOutcome
  | networkError
  | response (ok : Bool) (status : Nat) (statusText : String) (body : TokenBody)
deriving Repr, DecidableEq

/-- Expiry computed when caching a token (lines 157-162): `expires_in`
seconds from now when truthy, else a one-hour default. -/
def tokenExpiryValue (now : Int) (expiresIn : Option Int) : Int :=
  if intTruthy expiresIn then now + expiresIn.getD 0 * 1000 else now + 3600 * 1000

/-- The state written when a fetched token is cached (lines 154-162). -/
def cacheToken (st : TokenState) (now : Int) (tok : String)
    (expiresIn : Option Int) : TokenState :=
  { st with cachedToken := some tok, tokenExpiry := some (tokenExpiryValue now expiresIn) }

/-- Embedding of `getBearerToken` (lines 110-170) as a state transition: the result is
(returned token, new session state, whether a network fetch was made).
With no token URL the static API key is returned.  A cached token is
returned without I/O while `cachedToken` and `tokenExpiry` are truthy and
`now < tokenExpiry - 300000` (the five-minute safety margin).  Otherwise
the token endpoint is fetched; every failure (network error, non-ok
status, unparseable or invalid body) is caught and falls back to the
static API key; a successful fetch caches the token with its expiry. -/
def getBearerToken (st : TokenState) (now : Int) (fetch : TokenFetchOutcome) :
    Option String × TokenState × Bool :=
  match st.tokenUrl with
  | none => (st.apiKey, st, false)
  | some _ =>
    if strTruthy st.cachedToken ∧ intTruthy st.tokenExpiry ∧
        now < st.tokenExpiry.getD 0 - 300000 then
      (st.cachedToken, st, false)
    else
      match fetch with
      | TokenFetchOutcome.networkError => (st.apiKey, st, true)
      | TokenFetchOutcome.response ok _ _ body =>
        if ok = false then (st.apiKey, st, true)
        else
          match body with
          | TokenBody.jsonError => (st.apiKey, st, true)
          | TokenBody.invalid => (st.apiKey, st, true)
          | TokenBody.str s => (some s, cacheToken st now s none, true)
          | TokenBody.oauth tok expIn => (some tok, cacheToken st now tok expIn, true)
          | TokenBody.custom tok expIn => (some tok, cacheToken st now tok expIn, true)

/-- Embedding of `setTokenUrl` (lines 176-181): set the URL and clear the cached token
and its expiry. -/
def setTokenUrl (st : TokenState) (url : String) : TokenState :=
  { st with tokenUrl := some url, cachedToken := none, tokenExpiry := none }

/-- Embedding of `clearCachedToken` (lines 194-197). -/
def clearCachedToken (st : TokenState) : TokenState :=
  { st with cachedToken := none, tokenExpiry := none }

end OllamaProvider

namespace OllamaProvider

/-- Whenever the token URL is set and the cache test fails, every fetch
outcome reports that a network fetch was made. -/
theorem getBearerToken_fetches_of_miss (st : TokenState) (u : String)
    (now : Int) (fetch : TokenFetchOutcome)
    (hurl : st.tokenUrl = some u)
    (hmiss : ¬(strTruthy st.cachedToken ∧ intTruthy st.tokenExpiry ∧
      now < st.tokenExpiry.getD 0 - 300000)) :
    (getBearerToken st now fetch).2.2 = true := by
  cases fetch with
  | networkError => simp [getBearerToken, hurl, hmiss]
  | response ok status statusText body =>
    cases ok <;> cases body <;> simp [getBearerToken, hurl, hmiss]

/-- The cached expiry is positive, hence truthy, when the clock is
positive and `expires_in` is non-negative. -/
theorem tokenExpiryValue_pos (now : Int) (expIn : Int)
    (hnow : 0 < now) (hexp : 0 ≤ expIn) :
    0 < tokenExpiryValue now (some expIn) := by
  have hmul : (0 : Int) ≤ expIn * 1000 := by positivity
  unfold tokenExpiryValue
  by_cases h : intTruthy (some expIn)
  · rw [if_pos h]
    simp only [Option.getD_some]
    omega
  · rw [if_neg h]
    omega

end OllamaProvider

namespace OllamaProvider

/-- C8: with a token URL configured, a first request that misses the cache
fetches the token once and caches it; a second request within the cached
token's validity window (`now < expiry - 300000`) returns the same token
with no network fetch and leaves the state unchanged, so two consecutive
requests inside the window cost exactly one fetch; a second request
outside the window performs a fetch again. -/
theorem bearerToken_cache_idempotent (st : TokenState) (u tok : String)
    (expIn : Int) (now₁ now₂ : Int) (f₂ f₃ : TokenFetchOutcome)
    (hurl : st.tokenUrl = some u)
    (hmiss : strTruthy st.cachedToken = false)
    (htok : tok ≠ "") (hnow : 0 < now₁) (hexp : 0 ≤ expIn) :
    getBearerToken st now₁
        (TokenFetchOutcome.response true 200 "OK" (TokenBody.oauth tok (some expIn))) =
      (some tok, cacheToken st now₁ tok (some expIn), true) ∧
    (now₂ < tokenExpiryValue now₁ (some expIn) - 300000 →
      getBearerToken (cacheToken st now₁ tok (some expIn)) now₂ f₂ =
        (some tok, cacheToken st now₁ tok (some expIn), false)) ∧
    (tokenExpiryValue now₁ (some expIn) - 300000 ≤ now₂ →
      (getBearerToken (cacheToken st now₁ tok (some expIn)) now₂ f₃).2.2 = true) := by
  have hpos := tokenExpiryValue_pos now₁ expIn hnow hexp
  have hcurl : (cacheToken st now₁ tok (some expIn)).tokenUrl = some u := hurl
  have hcc : (cacheToken st now₁ tok (some expIn)).cachedToken = some tok := rfl
  have hce : (cacheToken st now₁ tok (some expIn)).tokenExpiry =
      some (tokenExpiryValue now₁ (some expIn)) := rfl
  refine ⟨?_, ?_, ?_⟩
  · simp [getBearerToken, hurl, hmiss]
  · intro hwin
    have hcond : strTruthy (some tok) ∧
        intTruthy (cacheToken st now₁ tok (some expIn)).tokenExpiry ∧
        now₂ < (cacheToken st now₁ tok (some expIn)).tokenExpiry.getD 0 - 300000 := by
      refine ⟨?_, ?_, ?_⟩
      · simp [strTruthy, htok]
      · simp only [hce, intTruthy]
        simp only [Bool.not_eq_true']
        exact decide_eq_false (by omega)
      · simp only [hce, Option.getD_some]
        exact hwin
    simp only [getBearerToken, hcurl, hcc]
    rw [if_pos hcond]
  · intro hout
    refine getBearerToken_fetches_of_miss _ u now₂ f₃ hcurl ?_
    rintro ⟨-, -, hlt⟩
    rw [hce] at hlt
    simp only [Option.getD_some] at hlt
    omega

/-- C8 witness: a fresh session fetches once at time 1; a second request
at time 2 is inside the window and reuses the cache; a request at the
window edge fetches again. -/
theorem bearerToken_cache_idempotent_witness :
    getBearerToken
        { tokenUrl := some "https://auth.example.com/token", apiKey := none,
          cachedToken := none, tokenExpiry := none } 1
        (TokenFetchOutcome.response true 200 "OK" (TokenBody.oauth "tok-a" (some 3600))) =
      (some "tok-a",
        cacheToken
          { tokenUrl := some "https://auth.example.com/token", apiKey := none,
            cachedToken := none, tokenExpiry := none } 1 "tok-a" (some 3600), true) ∧
    ((2 : Int) < tokenExpiryValue 1 (some 3600) - 300000 →
      getBearerToken
          (cacheToken
            { tokenUrl := some "https://auth.example.com/token", apiKey := none,
              cachedToken := none, tokenExpiry := none } 1 "tok-a" (some 3600)) 2
          TokenFetchOutcome.networkError =
        (some "tok-a",
          cacheToken
            { tokenUrl := some "https://auth.example.com/token", apiKey := none,
              cachedToken := none, tokenExpiry := none } 1 "tok-a" (some 3600), false)) ∧
    (tokenExpiryValue 1 (some 3600) - 300000 ≤ (2 : Int) →
      (getBearerToken
          (cacheToken
            { tokenUrl := some "https://auth.example.com/token", apiKey := none,
              cachedToken := none, tokenExpiry := none } 1 "tok-a" (some 3600)) 2
          TokenFetchOutcome.networkError).2.2 = true) :=
  bearerToken_cache_idempotent
    { tokenUrl := some "https://auth.example.com/token", apiKey := none,
      cachedToken := none, tokenExpiry := none }
    "https://auth.example.com/token" "tok-a" 3600 1 2
    TokenFetchOutcome.networkError TokenFetchOutcome.networkError
    rfl rfl (by decide) (by decide) (by decide)

/-- C10: `setTokenUrl` clears the cached bearer token and its expiry, so
the first token request after a token-URL change always goes to the
network (a fetch is made whatever its outcome is), never serving a token
cached under the previous URL. -/
theorem setTokenUrl_clears_cache (st : TokenState) (url : String)
    (now : Int) (fetch : TokenFetchOutcome) :
    (setTokenUrl st url).cachedToken = none ∧
    (setTokenUrl st url).tokenExpiry = none ∧
    (getBearerToken (setTokenUrl st url) now fetch).2.2 = true := by
  refine ⟨rfl, rfl, ?_⟩
  refine getBearerToken_fetches_of_miss _ url now fetch rfl ?_
  rintro ⟨hc, -, -⟩
  simp [setTokenUrl, strTruthy] at hc

end OllamaProvider

namespace OllamaProvider

/-- Decidable JavaScript `hay.includes(needle)` on character lists. -/
def containsSub (hay needle : List Char) : Bool :=
  match hay with
  | [] => needle.isEmpty
  | _ :: t => needle.isPrefixOf hay || containsSub t needle

/-- JavaScript `s.includes(sub)`. -/
def strIncludes (s sub : String) : Bool :=
  containsSub s.toList sub.toList

/-- The provider configuration field read by `getToolFormat`:
`providerToolFormatOverrides`, a record from provider name to a tool
format, modelled as an association list. -/
structure IProviderConfig where
  providerToolFormatOverrides : Option (List (String × String))
deriving Repr, DecidableEq

/-- The provider-session fields read by `getToolFormat`: the provider
`name` (`"ollama"` by default), the current model id, an optional manual
override, and the optional configuration. -/
structure ProviderState where
  name : String
  currentModel : String
  toolFormatOverride : Option String
  config : Option IProviderConfig
deriving Repr, DecidableEq

/-- Embedding of the lookup `this.config?.providerToolFormatOverrides?.[this.name]` (line 206). -/
def configToolFormatOverride (p : ProviderState) : Option String :=
  match p.config with
  | none => none
  | some cfg =>
    match cfg.providerToolFormatOverrides with
    | none => none
    | some overrides => overrides.lookup p.name

/-- Embedding of `getToolFormat` (lines 199-229): manual override first, then the
configuration-supplied per-provider override, then substring auto-detect
against the current model id (`llama`, `deepseek`, `qwen`, `hermes`,
`gemma`, in that order), and `llama` as the default.  The two override
checks are JavaScript truthiness tests, so an empty-string override is
passed over. -/
def getToolFormat (p : ProviderState) : String :=
  if strTruthy p.toolFormatOverride then p.toolFormatOverride.getD ""
  else if strTruthy (configToolFormatOverride p) then
    (configToolFormatOverride p).getD ""
  else if strIncludes p.currentModel "llama" then "llama"
  else if strIncludes p.currentModel "deepseek" then "deepseek"
  else if strIncludes p.currentModel "qwen" then "qwen"
  else if strIncludes p.currentModel "hermes" then "hermes"
  else if strIncludes p.currentModel "gemma" then "gemma"
  else "llama"

/-- The known-family table, in the order the spec lists it. -/
def knownFamilies : List String :=
  ["llama", "deepseek", "qwen", "hermes", "gemma"]

/-- Modelled from the spec's words for comparison with `getToolFormat`:
resolution in a fixed order with first match winning — (1) the explicit
manual override if set, (2) the configuration-supplied per-provider
override if present, (3) the first substring match of the current model id
against the known-family table, (4) the default dialect `llama`. -/
def resolveToolFormatSpec (p : ProviderState) : String :=
  match if strTruthy p.toolFormatOverride then p.toolFormatOverride else none with
  | some f => f
  | none =>
    match if strTruthy (configToolFormatOverride p) then
        configToolFormatOverride p else none with
    | some f => f
    | none =>
      ((knownFamilies.find? fun fam => strIncludes p.currentModel fam).getD "llama")

/-- C7: `getToolFormat` resolves the tool-calling dialect exactly as the
spec's four-step first-match-wins order prescribes, for every provider
state. -/
theorem getToolFormat_resolution_order (p : ProviderState) :
    getToolFormat p = resolveToolFormatSpec p := by
  by_cases h₁ : strTruthy p.toolFormatOverride
  · cases hov : p.toolFormatOverride with
    | none => rw [hov] at h₁; simp [strTruthy] at h₁
    | some f =>
      have h₁' : strTruthy (some f) = true := hov ▸ h₁
      simp [getToolFormat, resolveToolFormatSpec, hov, h₁, h₁']
  · by_cases h₂ : strTruthy (configToolFormatOverride p)
    · cases hcf : configToolFormatOverride p with
      | none => rw [hcf] at h₂; simp [strTruthy] at h₂
      | some f =>
        simp [getToolFormat, resolveToolFormatSpec, hcf, h₁, h₂, hcf ▸ h₂]
    · simp only [getToolFormat, resolveToolFormatSpec, h₁, h₂, if_neg,
        Bool.false_eq_true, if_false]
      simp only [knownFamilies, List.find?]
      by_cases g₁ : strIncludes p.currentModel "llama"
      · simp [g₁]
      · simp only [g₁, Bool.false_eq_true, if_false]
        by_cases g₂ : strIncludes p.currentModel "deepseek"
        · simp [g₂]
        · simp only [g₂, Bool.false_eq_true, if_false]
          by_cases g₃ : strIncludes p.currentModel "qwen"
          · simp [g₃]
          · simp only [g₃, Bool.false_eq_true, if_false]
            by_cases g₄ : strIncludes p.currentModel "hermes"
            · simp [g₄]
            · simp only [g₄, Bool.false_eq_true, if_false]
              by_cases g₅ : strIncludes p.currentModel "gemma"
              · simp [g₅]
              · simp [g₅]

end OllamaProvider
